import Mathlib

/-!
Verification of the layered data pipeline (Bronze / Silver / Gold ETL).

The definitions below are a shallow embedding of the Python sources under
`src/`:
* `src/etl/bronze/base.py` — `_parse_date_column` and `BronzeETL.transform`;
* `src/etl/bronze/website.py` — `WebsiteBronzeETL.transform`;
* `src/etl/silver/base.py` — `SilverETL._normalize_status`;
* `src/etl/base.py` — `save_partitioned` and `ETLConfig.from_yaml`;
* `src/etl/gold/combine.py` — `GoldETL._create_metrics`;
* `src/etl/pipeline.py` — `load_config`, `run_source_pipeline`, `run_pipeline`.

DataFrames are modelled as lists of rows (or as association lists of named,
dtype-tagged columns where column renaming matters); fallible operations
return `Except String`; machine floats of the metric rates are modelled
as rationals.
-/

/-! ### Generic list helpers (sorting and grouping used by several models) -/

/-- Insert `a` into `l` before the first element `b` with `le a b`. -/
def insSorted (le : α → α → Bool) (a : α) : List α → List α
  | [] => [a]
  | b :: bs => if le a b then a :: b :: bs else b :: insSorted le a bs

/-- Insertion sort by a boolean comparison (models polars `sort`). -/
def sortedBy (le : α → α → Bool) : List α → List α
  | [] => []
  | a :: as => insSorted le a (sortedBy le as)

/-- Distinct keys, sorted (models polars `.unique().sort(...)`). -/
def uniqueSorted [DecidableEq α] (le : α → α → Bool) (l : List α) : List α :=
  sortedBy le l.dedup

/-- Concatenation of a family of lists over an index list. -/
def catMap (f : κ → List α) : List κ → List α
  | [] => []
  | k :: ks => f k ++ catMap f ks

theorem insSorted_perm (le : α → α → Bool) (a : α) (l : List α) :
    (insSorted le a l).Perm (a :: l) := by
  induction l with
  | nil => simp [insSorted]
  | cons b bs ih =>
    simp only [insSorted]
    by_cases h : le a b = true
    · simp [h]
    · simp only [h, if_false]
      exact ((ih.cons b).trans (List.Perm.swap a b bs))

theorem sortedBy_perm (le : α → α → Bool) (l : List α) :
    (sortedBy le l).Perm l := by
  induction l with
  | nil => simp [sortedBy]
  | cons a as ih =>
    exact (insSorted_perm le a (sortedBy le as)).trans (ih.cons a)

theorem mem_uniqueSorted [DecidableEq α] (le : α → α → Bool) (l : List α) (a : α) :
    a ∈ uniqueSorted le l ↔ a ∈ l := by
  unfold uniqueSorted
  rw [(sortedBy_perm le l.dedup).mem_iff, List.mem_dedup]

theorem nodup_uniqueSorted [DecidableEq α] (le : α → α → Bool) (l : List α) :
    (uniqueSorted le l).Nodup :=
  (sortedBy_perm le l.dedup).nodup_iff.mpr l.nodup_dedup

theorem catMap_congr {f g : κ → List α} (l : List κ) (h : ∀ k ∈ l, f k = g k) :
    catMap f l = catMap g l := by
  induction l with
  | nil => rfl
  | cons k ks ih =>
    simp only [catMap]
    rw [h k (List.mem_cons_self k ks), ih (fun x hx => h x (List.mem_cons_of_mem k hx))]

theorem catMap_length (f : κ → List α) (l : List κ) :
    (catMap f l).length = ((l.map (fun k => (f k).length)).sum) := by
  induction l with
  | nil => rfl
  | cons k ks ih => simp [catMap, ih]

/-- Grouping a list by a complete, duplicate-free family of keys and
concatenating the groups is a permutation of the original list. -/
theorem catMap_filter_perm [DecidableEq κ] (key : α → κ) (keys : List κ) :
    ∀ rows : List α, keys.Nodup → (∀ r ∈ rows, key r ∈ keys) →
      (catMap (fun k => rows.filter (fun r => decide (key r = k))) keys).Perm rows := by
  induction keys with
  | nil =>
    intro rows _ hcov
    cases rows with
    | nil => simp [catMap]
    | cons r rs => exact absurd (hcov r (List.mem_cons_self r rs)) (List.not_mem_nil _)
  | cons k ks ih =>
    intro rows hnd hcov
    have hknots : k ∉ ks := (List.nodup_cons.mp hnd).1
    have hndks : ks.Nodup := (List.nodup_cons.mp hnd).2
    set B := rows.filter (fun r => !(decide (key r = k))) with hB
    have hcovB : ∀ r ∈ B, key r ∈ ks := by
      intro r hr
      have hr' := List.mem_filter.mp hr
      have hne : key r ≠ k := by
        intro hEq
        simp [hEq] at hr'
      have := hcov r hr'.1
      cases List.mem_cons.mp this with
      | inl h => exact absurd h hne
      | inr h => exact h
    have hsame : ∀ k' ∈ ks,
        rows.filter (fun r => decide (key r = k')) = B.filter (fun r => decide (key r = k')) := by
      intro k' hk'
      rw [hB, List.filter_filter]
      apply List.filter_congr
      intro r _
      by_cases h : key r = k'
      · have hkk : ¬ k' = k := fun hEq => hknots (hEq ▸ hk')
        simp [h, hkk]
      · simp [h]
    show (rows.filter (fun r => decide (key r = k)) ++
        catMap (fun k' => rows.filter (fun r => decide (key r = k'))) ks).Perm rows
    rw [catMap_congr ks hsame]
    exact (List.Perm.append_left _ (ih B hndks hcovB)).trans (List.filter_append_perm _ rows)

/-! ### Date parsing (`_parse_date_column` in `src/etl/bronze/base.py`)

polars `str.strptime(..., strict=False)` is backed by chrono format
directives; the subset used by the pipeline (`%m`, `%d`, `%y`, `%Y` and
literal separators, whole-string match) is interpreted below. A row that
fails to parse becomes `none` (a null). -/

/-- A calendar date; the pipeline reads only the date part of a `Datetime`
(Year/Month derivation), so a datetime value is modelled by its date. -/
structure DateYMD where
  year : Int
  month : Nat
  day : Nat
deriving DecidableEq, Repr

def isLeapYear (y : Int) : Bool :=
  y % 4 = 0 && (y % 100 != 0 || y % 400 = 0)

def daysInMonth (y : Int) (m : Nat) : Nat :=
  if m = 2 then (if isLeapYear y then 29 else 28)
  else if m = 4 || m = 6 || m = 9 || m = 11 then 30
  else 31

def validDate (y : Int) (m d : Nat) : Bool :=
  1 ≤ m && m ≤ 12 && 1 ≤ d && d ≤ daysInMonth y m

/-- Take up to `max` leading decimal digits. -/
def takeDigits : Nat → List Char → (List Char × List Char)
  | 0, cs => ([], cs)
  | _ + 1, [] => ([], [])
  | n + 1, c :: cs =>
    if c.isDigit then
      let p := takeDigits n cs
      (c :: p.1, p.2)
    else ([], c :: cs)

def digitsVal (ds : List Char) : Nat :=
  ds.foldl (fun acc c => acc * 10 + (c.toNat - 48)) 0

/-- Greedily scan a number of at most `max` digits (chrono `scan::number`). -/
def scanNum (max : Nat) (cs : List Char) : Option (Nat × List Char) :=
  let p := takeDigits max cs
  if p.1.isEmpty then none else some (digitsVal p.1, p.2)

/-- chrono maps a two-digit year 00-68 to 20xx and 69-99 to 19xx. -/
def expandTwoDigitYear (n : Nat) : Int :=
  if n ≤ 68 then 2000 + (n : Int) else 1900 + (n : Int)

structure DateParts where
  y : Option Int
  m : Option Nat
  d : Option Nat
deriving DecidableEq

/-- Run a chrono format string over the input; the whole input must be
consumed (polars strptime uses exact matching). -/
def runFormat : List Char → List Char → DateParts → Option DateParts
  | [], [], st => some st
  | [], _ :: _, _ => none
  | '%' :: f :: fs, cs, st =>
    match f with
    | 'm' =>
      match scanNum 2 cs with
      | some (n, rest) => runFormat fs rest { st with m := some n }
      | none => none
    | 'd' =>
      match scanNum 2 cs with
      | some (n, rest) => runFormat fs rest { st with d := some n }
      | none => none
    | 'y' =>
      match scanNum 2 cs with
      | some (n, rest) => runFormat fs rest { st with y := some (expandTwoDigitYear n) }
      | none => none
    | 'Y' =>
      match scanNum 4 cs with
      | some (n, rest) => runFormat fs rest { st with y := some (n : Int) }
      | none => none
    | _ => none
  | lit :: fs, c :: cs, st => if lit = c then runFormat fs cs st else none
  | _ :: _, [], _ => none

/-- Parse one string with one format; invalid field values or leftover
input yield `none` (a null under `strict=False`). -/
def strptime (fmt : String) (s : String) : Option DateYMD :=
  match runFormat fmt.data s.data ⟨none, none, none⟩ with
  | some ⟨some y, some m, some d⟩ => if validDate y m d then some ⟨y, m, d⟩ else none
  | _ => none

/-- Element-wise strptime over an optional cell; nulls stay null. -/
def strptimeOpt (fmt : String) : Option String → Option DateYMD
  | none => none
  | some s => strptime fmt s

/-- The fixed format priority list of `_parse_date_column`. -/
def date_formats : List String :=
  ["%m-%d-%y", "%m/%d/%y", "%Y-%m-%d", "%d-%m-%Y", "%m-%d-%Y"]

def countSome (l : List (Option DateYMD)) : Nat :=
  (l.filter (fun o => o.isSome)).length

/-- The time component accepted by the fallback cast after `T` or a space:
`HH:MM:SS` with an optional fractional-second tail ending the string. -/
def validTimeTail (cs : List Char) : Bool :=
  match scanNum 2 cs with
  | some (hh, ':' :: cs1) =>
    match scanNum 2 cs1 with
    | some (mi, ':' :: cs2) =>
      match scanNum 2 cs2 with
      | some (ss, rest) =>
        (hh ≤ 23 && mi ≤ 59 && ss ≤ 59) &&
          (match rest with
           | [] => true
           | '.' :: ds => !ds.isEmpty && ds.all Char.isDigit
           | _ => false)
      | none => false
    | _ => false
  | _ => false

/-- polars `cast(pl.Datetime, strict=False)` on a string: ISO-8601
inference, which parses more than the `%Y-%m-%d` format — in particular
date-time strings whose time component every listed format rejects.
Modelled forms: `YYYY-MM-DD`, optionally followed by `T` or a space and
`HH:MM:SS` with optional fractional seconds; the value is truncated to
its date, the only part the pipeline reads. Variants beyond these (e.g.
timezone-suffixed strings) are outside the model and no claim's
conclusion depends on them. -/
def castDatetime (s : String) : Option DateYMD :=
  match scanNum 4 s.data with
  | some (y, '-' :: cs1) =>
    match scanNum 2 cs1 with
    | some (m, '-' :: cs2) =>
      match scanNum 2 cs2 with
      | some (d, rest) =>
        if validDate (y : Int) m d then
          match rest with
          | [] => some ⟨(y : Int), m, d⟩
          | c :: cs3 =>
            if (c = 'T' || c = ' ') && validTimeTail cs3 then some ⟨(y : Int), m, d⟩
            else none
        else none
      | none => none
    | _ => none
  | _ => none

/-- Element-wise fallback cast over an optional cell; nulls stay null. -/
def castDatetimeOpt : Option String → Option DateYMD
  | none => none
  | some s => castDatetime s

/-- The values of a `Date` column after `_parse_date_column`
(`src/etl/bronze/base.py`): the first format whose parse leaves at least
one non-null row wins (`null_count < len`); if every format fails, the
fallback `cast(pl.Datetime, strict=False)` runs, parsing each row by
ISO-8601 inference and nulling the rows that inference rejects. -/
def _parse_date_column (vals : List (Option String)) : List (Option DateYMD) :=
  match date_formats.find? (fun fmt => 0 < countSome (vals.map (strptimeOpt fmt))) with
  | some fmt => vals.map (strptimeOpt fmt)
  | none => vals.map castDatetimeOpt

example : strptime "%d-%m-%Y" "13-01-2024" = some ⟨2024, 1, 13⟩ := by decide
example : strptime "%m-%d-%y" "13-01-2024" = none := by decide
example : strptime "%Y-%m-%d" "13-01-2024" = none := by decide
example : strptime "%Y-%m-%d" "2024-01-13" = some ⟨2024, 1, 13⟩ := by decide
example : strptime "%Y-%m-%d" "2024-01-13 12:34:56" = none := by decide
example : strptime "%m-%d-%y" "01-13-24" = some ⟨2024, 1, 13⟩ := by decide
example : castDatetime "2024-01-13" = some ⟨2024, 1, 13⟩ := by decide
example : castDatetime "2024-01-13 12:34:56" = some ⟨2024, 1, 13⟩ := by decide
example : castDatetime "2024-01-13T00:00:00.000" = some ⟨2024, 1, 13⟩ := by decide
example : castDatetime "13-01-2024" = none := by decide
example : _parse_date_column [some "13-01-2024"] = [some ⟨2024, 1, 13⟩] := by decide

/-! ### Named-column frames and the Bronze transforms
(`src/etl/bronze/base.py`, `src/etl/bronze/website.py`) -/

/-- A dtype-tagged column of optional cells. -/
inductive Column
  | strCol (vals : List (Option String))
  | dateCol (vals : List (Option DateYMD))
  | intCol (vals : List (Option Int))
deriving DecidableEq

/-- A DataFrame as an ordered association list of named columns. -/
abbrev DynFrame := List (String × Column)

def colLen : Column → Nat
  | .strCol vs => vs.length
  | .dateCol vs => vs.length
  | .intCol vs => vs.length

def nRows : DynFrame → Nat
  | [] => 0
  | (_, c) :: _ => colLen c

def hasCol (df : DynFrame) (name : String) : Bool :=
  (df.lookup name).isSome

/-- `with_columns`: replace the column in place if present, else append. -/
def withColumn (name : String) (c : Column) : DynFrame → DynFrame
  | [] => [(name, c)]
  | (n, c0) :: rest =>
    if n = name then (n, c) :: rest else (n, c0) :: withColumn name c rest

/-- `df.rename` keeps the column position. -/
def renameCol (old new : String) (df : DynFrame) : DynFrame :=
  df.map (fun p => if p.1 = old then (new, p.2) else p)

/-- `dt.year()` — raises a SchemaError on a non-temporal column. -/
def dtYear : Column → Except String (List (Option Int))
  | .dateCol vs => .ok (vs.map (fun o => o.map DateYMD.year))
  | _ => .error "SchemaError: dt accessor on non-temporal column"

/-- `dt.month()` (cast to Int32 by the Bronze transform). -/
def dtMonth : Column → Except String (List (Option Int))
  | .dateCol vs => .ok (vs.map (fun o => o.map (fun d => (d.month : Int))))
  | _ => .error "SchemaError: dt accessor on non-temporal column"

/-- Frame-level `_parse_date_column`: untouched when `Date` is absent or
already temporal, otherwise the string column goes through the format
loop. The polars fallback cast of a non-string, non-temporal column
(epoch reinterpretation) is outside this model and is unreachable in
every claim. -/
def parse_date_frame (df : DynFrame) : Except String DynFrame :=
  match df.lookup "Date" with
  | none => .ok df
  | some (.dateCol _) => .ok df
  | some (.strCol vs) => .ok (withColumn "Date" (.dateCol (_parse_date_column vs)) df)
  | some (.intCol _) => .error "unmodelled: integer Date column"

/-- `BronzeETL.transform` (`src/etl/bronze/base.py`): parse `Date` when the
column exists, then derive `Year`/`Month` from it, then add `Source`. -/
def BronzeETL.transform (source_name : String) (df : DynFrame) : Except String DynFrame :=
  if nRows df = 0 then .ok df
  else do
    let df1 ← if hasCol df "Date" then parse_date_frame df else pure df
    let df2 ←
      match df1.lookup "Date" with
      | some c => do
        let ys ← dtYear c
        let ms ← dtMonth c
        pure (withColumn "Month" (.intCol ms) (withColumn "Year" (.intCol ys) df1))
      | none => pure df1
    pure (withColumn "Source" (.strCol (List.replicate (nRows df2) (some source_name))) df2)

/-- The website column mapping (`src/etl/bronze/website.py`). -/
def website_column_mapping : List (String × String) :=
  [("Order Date", "Date"), ("Order No", "Order ID"),
   ("Order Status", "Status"), ("Cancel Reason", "Reason cancelled")]

/-- `WebsiteBronzeETL.transform`: runs the base transform FIRST and only
then renames the native website column names to the canonical ones. -/
def WebsiteBronzeETL.transform (source_name : String) (df : DynFrame) :
    Except String DynFrame := do
  let df ← BronzeETL.transform source_name df
  pure (website_column_mapping.foldl
    (fun acc p => if hasCol acc p.1 then renameCol p.1 p.2 acc else acc) df)

/-! ### Status normalization (`SilverETL._normalize_status`,
`src/etl/silver/base.py`; same lambda in `run_simple_etl`) -/

/-- The lambda `status_mapping.get(x, x) if x else None`: Python truthiness
sends both null and the empty string to null; other values look up the
mapping and fall back to themselves. -/
def normalize_status (mapping : List (String × String)) : Option String → Option String
  | none => none
  | some x => if x = "" then none else some ((mapping.lookup x).getD x)

/-! ### Configuration loading (`load_config` in `src/etl/pipeline.py`,
`ETLConfig.from_yaml` in `src/etl/base.py`) -/

/-- The built-in default returned by `load_config` when `config.yaml`
is missing. -/
def default_status_mapping : List (String × String) :=
  [("Delivered", "Delivered"), ("Completed", "Delivered"), ("Done", "Delivered"),
   ("Cancel by cust.", "Cancelled"), ("Cancelled", "Cancelled"), ("Canceled", "Cancelled"),
   ("Returned", "Returned"), ("Return", "Returned"), ("Refunded", "Returned"),
   ("Failed delivery", "Failed"), ("Failed", "Failed"), ("Delivery Failed", "Failed")]

/-- A parsed YAML configuration document. -/
structure YamlDoc where
  input_dir : String
  output_dir : String
  status_mapping : List (String × String)
deriving DecidableEq

/-- Simple-mode `load_config`: catches the missing-file error and returns
the built-in defaults. The real function returns the whole YAML dict;
it is modelled by its `status_mapping` entry, the only one the simple
pipeline reads, which is exactly what the fallback dict carries. -/
def load_config (fs : String → Option YamlDoc) (config_path : String) :
    List (String × String) :=
  match fs config_path with
  | some doc => doc.status_mapping
  | none => default_status_mapping

structure ETLConfig where
  source_name : String
  input_dir : String
  status_mapping : List (String × String)
deriving DecidableEq

/-- `ETLConfig.from_yaml`: opens the file with no exception handler — a
missing config file propagates as an error instead of falling back. -/
def ETLConfig.from_yaml (fs : String → Option YamlDoc) (config_path : String)
    (source_name : String) : Except String ETLConfig :=
  match fs config_path with
  | none => .error "FileNotFoundError"
  | some doc =>
    .ok { source_name := source_name,
          input_dir := if source_name = "" then doc.input_dir
            else doc.input_dir ++ "/" ++ source_name.toLower,
          status_mapping := doc.status_mapping }

/-! ### The Partitioned Store (`save_partitioned`, `src/etl/base.py`)

A row keeps its `Year`/`Month` cells and an opaque payload tag; the frame
records which of the two partition columns exist. The function returns
the saved-row count together with the written partition files, each one
identified by the `(year, month)` pair its path is built from. -/

structure PRow where
  year : Option Int
  month : Option Int
  tag : Nat
deriving DecidableEq, Repr

structure PFrame where
  hasYear : Bool
  hasMonth : Bool
  rows : List PRow
deriving DecidableEq

def partitionKey (r : PRow) : Option Int × Option Int := (r.year, r.month)

/-- The null filter runs only over partition columns that exist. -/
def filterPresent (f : PFrame) : List PRow :=
  let r1 := if f.hasYear then f.rows.filter (fun r => r.year.isSome) else f.rows
  if f.hasMonth then r1.filter (fun r => r.month.isSome) else r1

/-- Order used by `.unique().sort(partition_cols)`; polars sorts nulls
last. The order is irrelevant to every claim. -/
def optIntLe : Option Int → Option Int → Bool
  | none, none => true
  | none, some _ => false
  | some _, none => true
  | some a, some b => a ≤ b

def pKeyLe (a b : Option Int × Option Int) : Bool :=
  if a.1 = b.1 then optIntLe a.2 b.2 else optIntLe a.1 b.1

/-- A written partition file: the path-derived `(year, month)` — the path is
`{year}/{month:02d}/orders.parquet`, injective in the pair — and the rows
written to it. -/
abbrev PPart := (Int × Int) × List PRow

/-- One file per key, in key order; `int(None)` in the path build would
raise a TypeError (unreachable after the null filter). -/
def mkParts (rows : List PRow) : List (Option Int × Option Int) → Except String (List PPart)
  | [] => .ok []
  | k :: ks =>
    match k.1, k.2 with
    | some y, some m => do
      let rest ← mkParts rows ks
      .ok (((y, m), rows.filter (fun r => r.year == some y && r.month == some m)) :: rest)
    | none, _ => .error "TypeError"
    | some _, none => .error "TypeError"

/-- `save_partitioned` with the default `partition_cols = [Year, Month]`:
filter nulls on present columns, return 0 on an empty result, otherwise
select the partition columns (raising when one is missing), and write
one file per distinct key. -/
def save_partitioned (f : PFrame) : Except String (Nat × List PPart) :=
  let rows := filterPresent f
  if rows.length = 0 then .ok (0, [])
  else if f.hasYear && f.hasMonth then do
    let parts ← mkParts rows (uniqueSorted pKeyLe (rows.map partitionKey))
    .ok ((parts.map (fun p => p.2.length)).sum, parts)
  else .error "ColumnNotFoundError"

/-! ### Gold metrics (`GoldETL._create_metrics`, `src/etl/gold/combine.py`) -/

/-- A combined Gold row, restricted to the columns the metrics read. -/
structure GRow where
  source : Option String
  year : Option Int
  month : Option Int
  status_normalized : Option String
deriving DecidableEq, Repr

def gKey (r : GRow) : Option String × Option Int × Option Int :=
  (r.source, r.year, r.month)

/-- `pl.col(status).filter(col == s).len()`: nulls never equal a literal. -/
def countStatus (g : List GRow) (s : String) : Nat :=
  (g.filter (fun r => r.status_normalized == some s)).length

/-- Character-wise lexicographic string order, for the `Source` sort key. -/
def lexLe : List Char → List Char → Bool
  | [], _ => true
  | _ :: _, [] => false
  | a :: as, b :: bs => if a = b then lexLe as bs else decide (a < b)

def optLe (le : α → α → Bool) : Option α → Option α → Bool
  | none, none => true
  | none, some _ => false
  | some _, none => true
  | some a, some b => le a b

def gKeyLe (a b : Option String × Option Int × Option Int) : Bool :=
  if a.1 = b.1 then
    (if a.2.1 = b.2.1 then optIntLe a.2.2 b.2.2 else optIntLe a.2.1 b.2.1)
  else optLe (fun s t => lexLe s.data t.data) a.1 b.1

/-- Round to one decimal, the `.round(1)` of the rate columns; the rates
are quotients of counts, hence nonnegative, where rounding half away
from zero coincides with `⌊x + 1/2⌋`. -/
def round1 (x : ℚ) : ℚ := (⌊x * 10 + 1 / 2⌋ : ℚ) / 10

structure MetricsRow where
  source : Option String
  year : Option Int
  month : Option Int
  total_orders : Nat
  delivered : Nat
  cancelled : Nat
  returned : Nat
  failed : Nat
  delivery_rate : ℚ
  cancel_rate : ℚ
deriving DecidableEq, Repr

/-- The `monthly_by_source` table: group by `(Source, Year, Month)` — and by
nothing else; the code adds no synthetic combined group — count each
canonical status and attach the two rates. -/
def _create_metrics (rows : List GRow) : List MetricsRow :=
  (uniqueSorted gKeyLe (rows.map gKey)).map (fun k =>
    { source := k.1, year := k.2.1, month := k.2.2,
      total_orders := (rows.filter (fun r => gKey r == k)).length,
      delivered := countStatus (rows.filter (fun r => gKey r == k)) "Delivered",
      cancelled := countStatus (rows.filter (fun r => gKey r == k)) "Cancelled",
      returned := countStatus (rows.filter (fun r => gKey r == k)) "Returned",
      failed := countStatus (rows.filter (fun r => gKey r == k)) "Failed",
      delivery_rate :=
        round1 ((countStatus (rows.filter (fun r => gKey r == k)) "Delivered" : ℚ) /
          ((rows.filter (fun r => gKey r == k)).length : ℚ) * 100),
      cancel_rate :=
        round1 ((countStatus (rows.filter (fun r => gKey r == k)) "Cancelled" : ℚ) /
          ((rows.filter (fun r => gKey r == k)).length : ℚ) * 100) })

/-! ### The orchestrator (`run_source_pipeline` / `run_pipeline`,
`src/etl/pipeline.py`)

Bronze and Silver runs do file I/O, so each source's layer outcome is an
oracle parameter: either a row count or the error the layer raised. The
control flow of the orchestrator itself is modelled exactly: neither
function contains an exception handler. -/

/-- `run_source_pipeline` with the default layers: Bronze, then Silver;
any raised error propagates. -/
def run_source_pipeline (bronze silver : Except String Nat) :
    Except String (Nat × Nat) := do
  let b ← bronze
  let s ← silver
  pure (b, s)

/-- The per-source loop of `run_pipeline`: no try/except around the body. -/
def runSources (bronzeOf silverOf : String → Except String Nat) :
    List String → Except String (List (String × Nat × Nat))
  | [] => pure []
  | s :: rest => do
    let r ← run_source_pipeline (bronzeOf s) (silverOf s)
    let others ← runSources bronzeOf silverOf rest
    pure ((s, r) :: others)

structure PipelineResult where
  sources : List (String × Nat × Nat)
  gold_rows : Nat
deriving DecidableEq, Repr

/-- `run_pipeline` with the default layers: every source's Bronze+Silver,
then the Gold layer (its row count abstracted as `gold_rows`). -/
def run_pipeline (bronzeOf silverOf : String → Except String Nat)
    (gold_rows : Nat) (sources : List String) : Except String PipelineResult :=
  if sources.isEmpty then .error "No sources found"
  else do
    let rs ← runSources bronzeOf silverOf sources
    pure { sources := rs, gold_rows := gold_rows }

/-! ### Claim C3 — status normalization -/

/-- C3 (amended): normalization never raises and maps null to null, a
non-empty mapped value to its image, and a non-empty unmapped value to
itself; the empty string, being falsy in Python, maps to null instead of
passing through. -/
theorem normalize_status_characterization :
    (∀ m : List (String × String), normalize_status m none = none) ∧
    (∀ m : List (String × String), normalize_status m (some "") = none) ∧
    (∀ (m : List (String × String)) (s t : String), s ≠ "" → m.lookup s = some t →
      normalize_status m (some s) = some t) ∧
    (∀ (m : List (String × String)) (s : String), s ≠ "" → m.lookup s = none →
      normalize_status m (some s) = some s) := by
  refine ⟨fun m => rfl, fun m => rfl, ?_, ?_⟩
  · intro m s t hs hl
    simp [normalize_status, hs, hl]
  · intro m s hs hl
    simp [normalize_status, hs, hl]

/-- C3 witness: a mapped value and an unmapped value under the default
mapping. -/
theorem normalize_status_characterization_witness :
    normalize_status default_status_mapping (some "Completed") = some "Delivered" ∧
    normalize_status default_status_mapping (some "Weird") = some "Weird" :=
  ⟨normalize_status_characterization.2.2.1 default_status_mapping "Completed" "Delivered"
      (by decide) (by decide),
   normalize_status_characterization.2.2.2 default_status_mapping "Weird"
      (by decide) (by decide)⟩

/-- C3 counterexample: the claim says every string absent from the mapping
— including the empty string — passes through unchanged, but the code
maps the empty string to null. -/
theorem normalize_status_empty_string_null :
    normalize_status default_status_mapping (some "") = none ∧
    normalize_status default_status_mapping (some "") ≠ some "" := by
  exact ⟨rfl, by decide⟩

/-! ### Claim C5 — missing configuration file -/

/-- C5 (amended): with a missing config file the simple-mode loader
`load_config` falls back to the built-in default status mapping, but the
layered pipeline's loader `ETLConfig.from_yaml` propagates the
missing-file error instead of falling back. -/
theorem config_missing_file_behavior (fs : String → Option YamlDoc) (p : String)
    (h : fs p = none) :
    load_config fs p = default_status_mapping ∧
    ∀ s, ETLConfig.from_yaml fs p s = .error "FileNotFoundError" := by
  constructor
  · simp [load_config, h]
  · intro s
    simp [ETLConfig.from_yaml, h]

/-- C5 witness: an empty file system. -/
theorem config_missing_file_behavior_witness :
    load_config (fun _ => none) "config.yaml" = default_status_mapping ∧
    ETLConfig.from_yaml (fun _ => none) "config.yaml" "shopee" = .error "FileNotFoundError" :=
  ⟨(config_missing_file_behavior (fun _ => none) "config.yaml" rfl).1,
   (config_missing_file_behavior (fun _ => none) "config.yaml" rfl).2 "shopee"⟩

/-- C5 counterexample: the layered pipeline's config loader raises on a
missing file rather than falling back and proceeding. -/
theorem from_yaml_missing_file_raises :
    ETLConfig.from_yaml (fun _ => none) "config.yaml" "website_columbia" =
      .error "FileNotFoundError" := rfl

/-! ### Claim C2 — failure policy of the orchestrator -/

/-- Helper: an uncaught per-source error short-circuits the source loop. -/
theorem runSources_error (bronzeOf silverOf : String → Except String Nat)
    (post : List String) (s e : String)
    (hfail : run_source_pipeline (bronzeOf s) (silverOf s) = .error e) :
    ∀ pre : List String,
      (∀ t ∈ pre, ∃ r, run_source_pipeline (bronzeOf t) (silverOf t) = .ok r) →
      runSources bronzeOf silverOf (pre ++ s :: post) = .error e := by
  intro pre
  induction pre with
  | nil =>
    intro _
    simp only [List.nil_append, runSources, hfail]
    rfl
  | cons t ts ih =>
    intro hok
    obtain ⟨r, hr⟩ := hok t (List.mem_cons_self t ts)
    have ih' := ih (fun u hu => hok u (List.mem_cons_of_mem t hu))
    simp only [List.cons_append, runSources, hr, List.append_eq, ih']
    rfl

/-- C2 (amended): a single source's Bronze/Silver error is NOT caught: it
propagates out of `run_pipeline`, the remaining sources are not
processed and the Gold layer never runs — the whole run aborts with that
error. -/
theorem pipeline_single_source_failure_aborts
    (bronzeOf silverOf : String → Except String Nat) (g : Nat)
    (pre post : List String) (s e : String)
    (hok : ∀ t ∈ pre, ∃ r, run_source_pipeline (bronzeOf t) (silverOf t) = .ok r)
    (hfail : run_source_pipeline (bronzeOf s) (silverOf s) = .error e) :
    run_pipeline bronzeOf silverOf g (pre ++ s :: post) = .error e := by
  have hrs := runSources_error bronzeOf silverOf post s e hfail pre hok
  have hne : (pre ++ s :: post).isEmpty = false := by
    cases pre <;> simp
  simp [run_pipeline, hne, hrs]

def witness_bronze : String → Except String Nat :=
  fun s => if s = "bad" then .error "boom" else .ok 7

/-- C2 witness: one healthy source, then a failing one, then a source that
never runs. -/
theorem pipeline_single_source_failure_aborts_witness :
    run_pipeline witness_bronze (fun _ => .ok 3) 2 (["good"] ++ "bad" :: ["later"]) =
      .error "boom" :=
  pipeline_single_source_failure_aborts witness_bronze (fun _ => .ok 3) 2
    ["good"] ["later"] "bad" "boom"
    (by
      intro t ht
      simp only [List.mem_singleton] at ht
      subst ht
      exact ⟨(7, 3), rfl⟩)
    rfl

def failing_bronze : String → Except String Nat :=
  fun s => if s = "alpha" then .error "read failed" else .ok 5

/-- C2 counterexample: with two sources where the first one's Bronze read
fails, the whole run returns that error — the second source is never
processed and Gold never runs, contradicting the claimed catch-and-
continue policy. -/
theorem pipeline_failure_not_caught :
    run_pipeline failing_bronze (fun _ => .ok 4) 9 ["alpha", "beta"] =
      .error "read failed" := rfl

/-! ### Claim C10 — missing partition columns -/

/-- C10 (amended): when a partition column is missing, `save_partitioned`
raises — but only if at least one row survives null-filtering on the
partition columns that ARE present; otherwise it returns 0 first. -/
theorem save_partitioned_missing_column_raises (f : PFrame)
    (hmiss : f.hasYear = false ∨ f.hasMonth = false)
    (hrows : filterPresent f ≠ []) :
    save_partitioned f = .error "ColumnNotFoundError" := by
  have hlen : ¬ (filterPresent f).length = 0 := by
    simpa [List.length_eq_zero] using hrows
  have hcols : (f.hasYear && f.hasMonth) = false := by
    cases hmiss with
    | inl h => simp [h]
    | inr h => simp [h]
  simp [save_partitioned, hlen, hcols]

/-- C10 witness: a non-empty frame with neither partition column. -/
theorem save_partitioned_missing_column_raises_witness :
    save_partitioned
      { hasYear := false, hasMonth := false,
        rows := [{ year := some 2024, month := some 1, tag := 0 }] } =
      .error "ColumnNotFoundError" :=
  save_partitioned_missing_column_raises _ (Or.inl rfl) (by decide)

def c10_frame : PFrame :=
  { hasYear := true, hasMonth := false,
    rows := [{ year := none, month := none, tag := 7 }] }

/-- C10 counterexample: a non-empty frame that lacks the Month column but
whose Year column is entirely null — the null filter empties it, so
`save_partitioned` returns 0 and writes nothing instead of raising. -/
theorem save_partitioned_missing_column_returns_zero :
    c10_frame.rows.length = 1 ∧ c10_frame.hasMonth = false ∧
    save_partitioned c10_frame = .ok (0, []) :=
  ⟨rfl, rfl, rfl⟩

/-! ### Claim C4 — website Bronze transform ordering -/

def c4_input : DynFrame :=
  [("Order Date", .strCol [some "2024-01-13"]), ("Order No", .strCol [some "A1"]),
   ("Order Status", .strCol [some "Delivered"]), ("Cancel Reason", .strCol [none])]

def c4_output : DynFrame :=
  [("Date", .strCol [some "2024-01-13"]), ("Order ID", .strCol [some "A1"]),
   ("Status", .strCol [some "Delivered"]), ("Reason cancelled", .strCol [none]),
   ("Source", .strCol [some "website_columbia"])]

/-- C4 (code bug): on a website file with native column names, the Bronze
transform runs the base transform (date parsing and Year/Month
derivation) BEFORE the rename, when no column is named `Date` yet; the
output therefore keeps `Date` as a raw string column and has no Year or
Month column at all — the subsequent partitioned save then raises. -/
theorem website_transform_native_columns_unparsed :
    WebsiteBronzeETL.transform "website_columbia" c4_input = .ok c4_output ∧
    hasCol c4_output "Year" = false ∧ hasCol c4_output "Month" = false ∧
    c4_output.lookup "Date" = some (.strCol [some "2024-01-13"]) :=
  ⟨rfl, rfl, rfl, rfl⟩

/-! ### Claim C8 — date format priority -/

/-- Helper: `find?` returns `a` when `a` matches and everything strictly
before the first occurrence of `a` does not. -/
theorem find?_first [BEq α] [LawfulBEq α] (p : α → Bool) (a : α) :
    ∀ l : List α, a ∈ l → p a = true →
      (∀ b ∈ l.takeWhile (fun b => b != a), p b = false) →
      l.find? p = some a := by
  intro l
  induction l with
  | nil => intro h; cases h
  | cons x xs ih =>
    intro ha hpa hbefore
    by_cases hx : x = a
    · subst hx
      exact List.find?_cons_of_pos _ hpa
    · have hxa : (x != a) = true := by simp [hx]
      have hpx : p x = false := by
        apply hbefore
        simp only [List.takeWhile_cons, hxa, if_true]
        exact List.mem_cons_self x _
      rw [List.find?_cons_of_neg _ (by simp [hpx])]
      apply ih
      · cases List.mem_cons.mp ha with
        | inl h => exact absurd h.symm hx
        | inr h => exact h
      · exact hpa
      · intro b hb
        apply hbefore
        simp only [List.takeWhile_cons, hxa, if_true]
        exact List.mem_cons_of_mem x hb

/-- C8 (amended): the format loop tries the fixed list in priority order
and returns the first format that parses at least one row, even if a
later one would parse more; when every format yields zero parsed rows,
the result is the fallback `cast(pl.Datetime, strict=False)` applied to
each row — ISO-8601 inference, which nulls the rows it rejects but does
parse date-time strings that every listed format rejects — and nothing
raises. -/
theorem parse_date_format_priority :
    (∀ (vals : List (Option String)) (fmt : String), fmt ∈ date_formats →
      (∀ g ∈ date_formats.takeWhile (fun g => g != fmt),
        countSome (vals.map (strptimeOpt g)) = 0) →
      0 < countSome (vals.map (strptimeOpt fmt)) →
      _parse_date_column vals = vals.map (strptimeOpt fmt)) ∧
    (∀ vals : List (Option String),
      (∀ fmt ∈ date_formats, countSome (vals.map (strptimeOpt fmt)) = 0) →
      _parse_date_column vals = vals.map castDatetimeOpt) := by
  constructor
  · intro vals fmt hmem hbefore hfmt
    unfold _parse_date_column
    rw [find?_first (fun fmt => decide (0 < countSome (vals.map (strptimeOpt fmt)))) fmt
      date_formats hmem (by simpa using hfmt)
      (fun b hb => by simpa using hbefore b hb)]
  · intro vals hall
    unfold _parse_date_column
    rw [List.find?_eq_none.mpr (fun fmt hmem => by simpa using hall fmt hmem)]

/-- C8 counterexample: on `2024-01-13 12:34:56` every listed format yields
zero parsed rows (the time component is leftover input for `%Y-%m-%d`
and the separators or field widths fail the rest), yet the fallback cast
parses it — the column does NOT come back all-null when every format
fails, refuting the original all-rows-null conclusion. -/
theorem parse_date_fallback_parses_iso_datetime :
    (date_formats.all
      (fun fmt => countSome ([some "2024-01-13 12:34:56"].map (strptimeOpt fmt)) == 0)) = true ∧
    _parse_date_column [some "2024-01-13 12:34:56"] =
      [some { year := 2024, month := 1, day := 13 }] := by
  exact ⟨by decide, by decide⟩

/-- C8 witness: `13-01-2024` fails the first three formats (13 is not a
month; the separators do not match; a two-digit day cannot complete an
ISO string) and parses under `%d-%m-%Y` to January 13, 2024. -/
theorem parse_date_format_priority_witness :
    _parse_date_column [some "13-01-2024"] =
      [some { year := 2024, month := 1, day := 13 }] := by
  have h := parse_date_format_priority.1 [some "13-01-2024"] "%d-%m-%Y"
    (by decide) (by decide) (by decide)
  rw [h]
  decide

/-! ### Claims C1 and C9 — the `monthly_by_source` table -/

/-- The scenario of the spec: in March 2024 source Alpha contributes three
Delivered and one Cancelled row, source Beta two Delivered rows. -/
def scenario_rows : List GRow :=
  [{ source := some "Alpha", year := some 2024, month := some 3,
     status_normalized := some "Delivered" },
   { source := some "Alpha", year := some 2024, month := some 3,
     status_normalized := some "Delivered" },
   { source := some "Alpha", year := some 2024, month := some 3,
     status_normalized := some "Delivered" },
   { source := some "Alpha", year := some 2024, month := some 3,
     status_normalized := some "Cancelled" },
   { source := some "Beta", year := some 2024, month := some 3,
     status_normalized := some "Delivered" },
   { source := some "Beta", year := some 2024, month := some 3,
     status_normalized := some "Delivered" }]

def alpha_metrics : MetricsRow :=
  { source := some "Alpha", year := some 2024, month := some 3,
    total_orders := 4, delivered := 3, cancelled := 1, returned := 0, failed := 0,
    delivery_rate := 75, cancel_rate := 25 }

def beta_metrics : MetricsRow :=
  { source := some "Beta", year := some 2024, month := some 3,
    total_orders := 2, delivered := 2, cancelled := 0, returned := 0, failed := 0,
    delivery_rate := 100, cancel_rate := 0 }

/-- The scenario's group keys, in Source order. -/
theorem scenario_keys_eval :
    uniqueSorted gKeyLe (scenario_rows.map gKey) =
      [(some "Alpha", some 2024, some 3), (some "Beta", some 2024, some 3)] := by
  decide

/-- The Alpha group of the scenario. -/
theorem scenario_alpha_group :
    scenario_rows.filter (fun r => gKey r == (some "Alpha", some 2024, some 3)) =
      [{ source := some "Alpha", year := some 2024, month := some 3,
         status_normalized := some "Delivered" },
       { source := some "Alpha", year := some 2024, month := some 3,
         status_normalized := some "Delivered" },
       { source := some "Alpha", year := some 2024, month := some 3,
         status_normalized := some "Delivered" },
       { source := some "Alpha", year := some 2024, month := some 3,
         status_normalized := some "Cancelled" }] := by
  decide

/-- The Beta group of the scenario. -/
theorem scenario_beta_group :
    scenario_rows.filter (fun r => gKey r == (some "Beta", some 2024, some 3)) =
      [{ source := some "Beta", year := some 2024, month := some 3,
         status_normalized := some "Delivered" },
       { source := some "Beta", year := some 2024, month := some 3,
         status_normalized := some "Delivered" }] := by
  decide

/-- Evaluation of the metrics table on the scenario. -/
theorem metrics_scenario_eval :
    _create_metrics scenario_rows = [alpha_metrics, beta_metrics] := by
  unfold _create_metrics
  rw [scenario_keys_eval]
  simp only [List.map_cons, List.map_nil]
  rw [scenario_alpha_group, scenario_beta_group]
  norm_num [countStatus, round1, alpha_metrics, beta_metrics, MetricsRow.mk.injEq,
    List.filter, List.length]

/-- C1 (amended): `monthly_by_source` has a row exactly for each
`(Source, Year, Month)` combination present in the data — the code adds
no synthetic combined "All" group — and on the two-source March 2024
scenario it contains exactly the Alpha row (total 4, delivered 3, rate
75.0) and the Beta row (total 2, delivered 2, rate 100.0). -/
theorem metrics_rows_per_source :
    (∀ (rows : List GRow) (r : MetricsRow), r ∈ _create_metrics rows →
      (r.source, r.year, r.month) ∈ rows.map gKey) ∧
    (∀ (rows : List GRow) (k : Option String × Option Int × Option Int),
      k ∈ rows.map gKey → ∃ r ∈ _create_metrics rows, (r.source, r.year, r.month) = k) ∧
    _create_metrics scenario_rows = [alpha_metrics, beta_metrics] := by
  refine ⟨?_, ?_, metrics_scenario_eval⟩
  · intro rows r hr
    obtain ⟨k, hk, hrk⟩ := List.mem_map.mp hr
    have hk' : k ∈ rows.map gKey := (mem_uniqueSorted gKeyLe _ k).mp hk
    have : (r.source, r.year, r.month) = k := by
      subst hrk
      rfl
    rw [this]
    exact hk'
  · intro rows k hk
    have hk' : k ∈ uniqueSorted gKeyLe (rows.map gKey) := (mem_uniqueSorted gKeyLe _ k).mpr hk
    refine ⟨_, List.mem_map_of_mem _ hk', rfl⟩

/-- C1 witness: the Beta key from the scenario appears in the table. -/
theorem metrics_rows_per_source_witness :
    ∃ r ∈ _create_metrics scenario_rows,
      (r.source, r.year, r.month) = (some "Beta", some 2024, some 3) :=
  metrics_rows_per_source.2.1 scenario_rows (some "Beta", some 2024, some 3) (by decide)

/-- C1 counterexample: on the spec's own scenario the table has no
`Source = "All"` row at all — the claimed `(All, 6, 5, 83.3)` row does
not exist. -/
theorem metrics_no_all_row :
    ¬ (some "All") ∈ (_create_metrics scenario_rows).map MetricsRow.source := by
  rw [metrics_scenario_eval]
  decide

/-- Helper: rounding to one decimal keeps a value of `[0, 100]` in
`[0, 100]`. -/
theorem round1_bounds (x : ℚ) (h0 : 0 ≤ x) (h1 : x ≤ 100) :
    0 ≤ round1 x ∧ round1 x ≤ 100 := by
  unfold round1
  constructor
  · apply div_nonneg _ (by norm_num)
    have hfl : (0 : ℤ) ≤ ⌊x * 10 + 1 / 2⌋ := Int.floor_nonneg.mpr (by linarith)
    exact_mod_cast hfl
  · rw [div_le_iff₀ (by norm_num : (0 : ℚ) < 10)]
    have hlt : ⌊x * 10 + 1 / 2⌋ < 1001 := by
      apply Int.floor_lt.mpr
      push_cast
      linarith
    have hle : ⌊x * 10 + 1 / 2⌋ ≤ 1000 := by omega
    calc (⌊x * 10 + 1 / 2⌋ : ℚ) ≤ 1000 := by exact_mod_cast hle
      _ = 100 * 10 := by norm_num

/-- Helper: every metrics group is non-empty and each status count is at
most the group size. -/
theorem metrics_group_facts (rows : List GRow) (k : Option String × Option Int × Option Int)
    (hk : k ∈ uniqueSorted gKeyLe (rows.map gKey)) :
    1 ≤ (rows.filter (fun r => gKey r == k)).length ∧
      ∀ s, countStatus (rows.filter (fun r => gKey r == k)) s ≤
        (rows.filter (fun r => gKey r == k)).length := by
  constructor
  · have hk' : k ∈ rows.map gKey := (mem_uniqueSorted gKeyLe _ k).mp hk
    obtain ⟨r, hr, hrk⟩ := List.mem_map.mp hk'
    have hmem : r ∈ rows.filter (fun r => gKey r == k) :=
      List.mem_filter.mpr ⟨hr, by simp [hrk]⟩
    exact List.length_pos.mpr (fun hnil => by simp [hnil] at hmem)
  · intro s
    exact List.length_filter_le _ _

/-- C9: every `monthly_by_source` row comes from a non-empty group, so
`total_orders ≥ 1`, no rate is computed with a zero denominator, and
both rates land in `[0, 100]`. -/
theorem metrics_rates_bounded (rows : List GRow) (r : MetricsRow)
    (h : r ∈ _create_metrics rows) :
    1 ≤ r.total_orders ∧
    0 ≤ r.delivery_rate ∧ r.delivery_rate ≤ 100 ∧
    0 ≤ r.cancel_rate ∧ r.cancel_rate ≤ 100 := by
  obtain ⟨k, hk, hrk⟩ := List.mem_map.mp h
  obtain ⟨htot, hcnt⟩ := metrics_group_facts rows k hk
  subst hrk
  have hpos : (0 : ℚ) < ((rows.filter (fun r => gKey r == k)).length : ℚ) := by
    exact_mod_cast htot
  have hrate : ∀ s, 0 ≤ (countStatus (rows.filter (fun r => gKey r == k)) s : ℚ) /
      ((rows.filter (fun r => gKey r == k)).length : ℚ) * 100 ∧
      (countStatus (rows.filter (fun r => gKey r == k)) s : ℚ) /
      ((rows.filter (fun r => gKey r == k)).length : ℚ) * 100 ≤ 100 := by
    intro s
    have hns : (countStatus (rows.filter (fun r => gKey r == k)) s : ℚ) ≤
        ((rows.filter (fun r => gKey r == k)).length : ℚ) := by
      exact_mod_cast hcnt s
    constructor
    · positivity
    · have hdiv : (countStatus (rows.filter (fun r => gKey r == k)) s : ℚ) /
          ((rows.filter (fun r => gKey r == k)).length : ℚ) ≤ 1 :=
        (div_le_one hpos).mpr hns
      linarith
  refine ⟨htot, ?_, ?_, ?_, ?_⟩
  · exact (round1_bounds _ (hrate "Delivered").1 (hrate "Delivered").2).1
  · exact (round1_bounds _ (hrate "Delivered").1 (hrate "Delivered").2).2
  · exact (round1_bounds _ (hrate "Cancelled").1 (hrate "Cancelled").2).1
  · exact (round1_bounds _ (hrate "Cancelled").1 (hrate "Cancelled").2).2

/-- C9 witness: the Alpha row of the scenario. -/
theorem metrics_rates_bounded_witness :
    1 ≤ alpha_metrics.total_orders ∧
    0 ≤ alpha_metrics.delivery_rate ∧ alpha_metrics.delivery_rate ≤ 100 ∧
    0 ≤ alpha_metrics.cancel_rate ∧ alpha_metrics.cancel_rate ≤ 100 :=
  metrics_rates_bounded scenario_rows alpha_metrics
    (metrics_scenario_eval ▸ List.mem_cons_self alpha_metrics [beta_metrics])

/-! ### Claims C6 and C7 — the Partitioned Store -/

/-- Helper: characterization of a successful `mkParts`. -/
theorem mkParts_ok (rows : List PRow) :
    ∀ (keys : List (Option Int × Option Int)) (ps : List PPart),
      mkParts rows keys = .ok ps →
      catMap (fun p => p.2) ps =
        catMap (fun k => rows.filter (fun r => r.year == k.1 && r.month == k.2)) keys ∧
      ∀ p ∈ ps, p.2 = rows.filter (fun r => r.year == some p.1.1 && r.month == some p.1.2) := by
  intro keys
  induction keys with
  | nil =>
    intro ps h
    simp only [mkParts, Except.ok.injEq] at h
    subst h
    exact ⟨rfl, by simp⟩
  | cons k ks ih =>
    intro ps h
    obtain ⟨k1, k2⟩ := k
    cases k1 with
    | none => simp [mkParts] at h
    | some y =>
      cases k2 with
      | none => simp [mkParts] at h
      | some m =>
        simp only [mkParts] at h
        cases hrest : mkParts rows ks with
        | error e =>
          rw [hrest] at h
          exact absurd h (by simp [Bind.bind, Except.bind])
        | ok rest =>
          rw [hrest] at h
          simp only [Bind.bind, Except.bind, Except.ok.injEq] at h
          subst h
          obtain ⟨ih1, ih2⟩ := ih rest hrest
          constructor
          · simp only [catMap]
            rw [ih1]
          · intro p hp
            cases List.mem_cons.mp hp with
            | inl hEq => subst hEq; rfl
            | inr hmem => exact ih2 p hmem

/-- Helper: null-filtering the present columns then both columns equals
null-filtering both columns of the raw rows. -/
theorem filterPresent_filter_both (f : PFrame) :
    (filterPresent f).filter (fun r => r.year.isSome && r.month.isSome) =
      f.rows.filter (fun r => r.year.isSome && r.month.isSome) := by
  unfold filterPresent
  cases hY : f.hasYear <;> cases hM : f.hasMonth <;>
    simp only [Bool.false_eq_true, if_true, if_false, List.filter_filter] <;>
    apply List.filter_congr <;> intro r _ <;>
    cases hy : r.year.isSome <;> cases hm : r.month.isSome <;> simp [hy, hm]

/-- Helper: with both partition columns present, `filterPresent` is exactly
the both-columns null filter. -/
theorem filterPresent_tt (f : PFrame) (hY : f.hasYear = true) (hM : f.hasMonth = true) :
    filterPresent f = f.rows.filter (fun r => r.year.isSome && r.month.isSome) := by
  unfold filterPresent
  rw [hY, hM]
  simp only [if_true, List.filter_filter]
  apply List.filter_congr
  intro r _
  cases hy : r.year.isSome <;> cases hm : r.month.isSome <;> simp [hy, hm]

/-- C6: every row written to a partition file has exactly the `(Year,
Month)` its file path is derived from. -/
theorem partition_rows_match_path (f : PFrame) (n : Nat) (parts : List PPart)
    (h : save_partitioned f = .ok (n, parts)) :
    ∀ p ∈ parts, ∀ r ∈ p.2, r.year = some p.1.1 ∧ r.month = some p.1.2 := by
  unfold save_partitioned at h
  by_cases hlen : (filterPresent f).length = 0
  · rw [if_pos hlen] at h
    simp only [Except.ok.injEq, Prod.mk.injEq] at h
    obtain ⟨-, hps⟩ := h
    subst hps
    simp
  · rw [if_neg hlen] at h
    by_cases hcols : (f.hasYear && f.hasMonth) = true
    · rw [if_pos hcols] at h
      cases hmk : mkParts (filterPresent f)
          (uniqueSorted pKeyLe ((filterPresent f).map partitionKey)) with
      | error e =>
        rw [hmk] at h
        exact absurd h (by simp [Bind.bind, Except.bind])
      | ok ps =>
        rw [hmk] at h
        simp only [Bind.bind, Except.bind, Except.ok.injEq, Prod.mk.injEq] at h
        obtain ⟨-, hps⟩ := h
        subst hps
        intro p hp r hr
        have h2 := (mkParts_ok _ _ _ hmk).2 p hp
        rw [h2] at hr
        have hf := (List.mem_filter.mp hr).2
        simp only [Bool.and_eq_true, beq_iff_eq] at hf
        exact hf
    · rw [if_neg hcols] at h
      exact absurd h (by simp)

def c6_frame : PFrame :=
  { hasYear := true, hasMonth := true,
    rows := [{ year := some 2024, month := some 3, tag := 0 },
             { year := some 2024, month := some 4, tag := 1 },
             { year := none, month := some 3, tag := 2 }] }

def c6_parts : List PPart :=
  [((2024, 3), [{ year := some 2024, month := some 3, tag := 0 }]),
   ((2024, 4), [{ year := some 2024, month := some 4, tag := 1 }])]

/-- C6 witness: a three-row frame producing two partition files. -/
theorem partition_rows_match_path_witness :
    ({ year := some 2024, month := some 3, tag := 0 } : PRow).year = some 2024 ∧
    ({ year := some 2024, month := some 3, tag := 0 } : PRow).month = some 3 :=
  partition_rows_match_path c6_frame 2 c6_parts rfl
    ((2024, 3), [{ year := some 2024, month := some 3, tag := 0 }]) (by decide)
    { year := some 2024, month := some 3, tag := 0 } (by decide)

/-- C7: on success, the written partitions concatenate to a permutation of
the input rows minus those with a null Year or Month, the returned count
is the size of that surviving set, and an empty surviving set writes
nothing. -/
theorem save_partitioned_roundtrip (f : PFrame) (n : Nat) (parts : List PPart)
    (h : save_partitioned f = .ok (n, parts)) :
    (catMap (fun p => p.2) parts).Perm
        (f.rows.filter (fun r => r.year.isSome && r.month.isSome)) ∧
    n = (f.rows.filter (fun r => r.year.isSome && r.month.isSome)).length ∧
    (f.rows.filter (fun r => r.year.isSome && r.month.isSome) = [] → parts = []) := by
  unfold save_partitioned at h
  by_cases hlen : (filterPresent f).length = 0
  · rw [if_pos hlen] at h
    simp only [Except.ok.injEq, Prod.mk.injEq] at h
    obtain ⟨hn, hps⟩ := h
    have hnil : filterPresent f = [] := List.length_eq_zero.mp hlen
    have hsurv : f.rows.filter (fun r => r.year.isSome && r.month.isSome) = [] := by
      have hboth := filterPresent_filter_both f
      rw [hnil] at hboth
      simpa using hboth.symm
    subst hps
    rw [hsurv]
    exact ⟨by simp [catMap], by simpa using hn.symm, fun _ => rfl⟩
  · rw [if_neg hlen] at h
    by_cases hcols : (f.hasYear && f.hasMonth) = true
    · rw [if_pos hcols] at h
      have hcols2 : f.hasYear = true ∧ f.hasMonth = true := by simpa using hcols
      obtain ⟨hY, hM⟩ := hcols2
      have hfp := filterPresent_tt f hY hM
      cases hmk : mkParts (filterPresent f)
          (uniqueSorted pKeyLe ((filterPresent f).map partitionKey)) with
      | error e =>
        rw [hmk] at h
        exact absurd h (by simp [Bind.bind, Except.bind])
      | ok ps =>
        rw [hmk] at h
        simp only [Bind.bind, Except.bind, Except.ok.injEq, Prod.mk.injEq] at h
        obtain ⟨hn, hps⟩ := h
        subst hps
        have hmo := mkParts_ok (filterPresent f) _ ps hmk
        have hconv : ∀ k ∈ uniqueSorted pKeyLe ((filterPresent f).map partitionKey),
            (filterPresent f).filter (fun r => r.year == k.1 && r.month == k.2) =
              (filterPresent f).filter (fun r => decide (partitionKey r = k)) := by
          intro k _
          apply List.filter_congr
          intro r _
          obtain ⟨k1, k2⟩ := k
          by_cases h1 : r.year = k1 <;> by_cases h2 : r.month = k2 <;>
            simp [partitionKey, Prod.mk.injEq, h1, h2]
        have hperm : (catMap (fun p => p.2) ps).Perm (filterPresent f) := by
          rw [hmo.1, catMap_congr _ hconv]
          exact catMap_filter_perm partitionKey _ (filterPresent f)
            (nodup_uniqueSorted _ _)
            (fun r hr => (mem_uniqueSorted _ _ _).mpr (List.mem_map_of_mem _ hr))
        refine ⟨hfp ▸ hperm, ?_, ?_⟩
        · have hlength : (catMap (fun p => p.2) ps).length = n := by
            rw [catMap_length]
            exact hn
          rw [← hfp, ← hlength]
          exact hperm.length_eq
        · intro habs
          rw [← hfp] at habs
          exact absurd (by rw [habs]; rfl) hlen
    · rw [if_neg hcols] at h
      exact absurd h (by simp)

def c7_frame : PFrame :=
  { hasYear := true, hasMonth := true,
    rows := [{ year := some 2024, month := some 3, tag := 5 },
             { year := none, month := some 3, tag := 6 }] }

/-- C7 witness: a two-row frame whose null-dated row is dropped. -/
theorem save_partitioned_roundtrip_witness :
    (catMap (fun p => p.2)
        ([((2024, 3), [{ year := some 2024, month := some 3, tag := 5 }])] : List PPart)).Perm
      (c7_frame.rows.filter (fun r => r.year.isSome && r.month.isSome)) ∧
    1 = (c7_frame.rows.filter (fun r => r.year.isSome && r.month.isSome)).length ∧
    (c7_frame.rows.filter (fun r => r.year.isSome && r.month.isSome) = [] →
      ([((2024, 3), [{ year := some 2024, month := some 3, tag := 5 }])] : List PPart) = []) :=
  save_partitioned_roundtrip c7_frame 1
    [((2024, 3), [{ year := some 2024, month := some 3, tag := 5 }])] rfl
